import Mathlib

/-!
# Formal model of the claude-run terminal session broker

A shallow embedding of the session broker of the `claude-run` repository:
the pty-manager module (`createSession`, `killSession`, `addClient`,
`removeClient`, the `onData`/`onExit` pty handlers and the inactivity
timeout logic), the host resolution it consumes, the websocket attach
handler of the server, and the client-side reconnection backoff of the
`useTerminal` hook.

State that the TypeScript source keeps in module-level `Map`s is modelled
as explicit association lists threaded through the operations; external
side effects (spawning a process, sending a websocket message, closing a
socket, (un)scheduling a timer, killing the pty) are modelled as an
emitted list of `Effect`s so that theorems can speak about what the code
did, and in which order.  Pty output is modelled as lists of bytes
(`List Nat`); JavaScript strings and their `.length`/`.slice` behave like
those lists for the purposes of the claims.
-/

set_option maxHeartbeats 1000000

namespace ClaudeRun

/-! ## Association lists (model of the JavaScript `Map`s) -/

/-- Lookup in an association list; mirrors `Map.get` (first matching key). -/
def alookup {α : Type} : List (String × α) → String → Option α
  | [], _ => none
  | p :: ps, k => if p.1 = k then some p.2 else alookup ps k

/-- Insert-or-replace; mirrors `Map.set` (replace in place, else append). -/
def aset {α : Type} : List (String × α) → String → α → List (String × α)
  | [], k, v => [(k, v)]
  | p :: ps, k, v => if p.1 = k then (k, v) :: ps else p :: aset ps k v

/-- Removal of a key; mirrors `Map.delete`. -/
def adelete {α : Type} : List (String × α) → String → List (String × α)
  | [], _ => []
  | p :: ps, k => if p.1 = k then adelete ps k else p :: adelete ps k

/-! ## Path validation (`isValidPath`, pty-manager)

The source checks `/^[a-zA-Z0-9_\-./]+$/.test(path) && !path.includes("..")`.
-/

/-- One character of the regex class `[a-zA-Z0-9_\-./]`. -/
def pathCharOk (c : Char) : Bool :=
  c.isAlpha || c.isDigit || c = '_' || c = '-' || c = '.' || c = '/'

/-- `path.includes("..")`: some position starts two consecutive dots. -/
def hasDotDot : List Char → Bool
  | [] => false
  | [_] => false
  | a :: b :: rest => (a = '.' && b = '.') || hasDotDot (b :: rest)

/-- `isValidPath` from pty-manager: the anchored character-class regex
(which also forces nonemptiness) together with the rejection of `".."`. -/
def isValidPath (p : String) : Bool :=
  (!p.toList.isEmpty && p.toList.all pathCharOk) && !hasDotDot p.toList

/-! ## Data model -/

/-- A websocket as the broker sees it (the `WebSocketLike` interface):
an identity plus the `readyState` field the code inspects (1 = OPEN). -/
structure WS where
  wsId : Nat
  readyState : Nat
deriving DecidableEq, Repr

/-- Protocol messages sent to clients (the JSON frames of the source,
with pty output as byte lists). -/
inductive Msg where
  | data (d : List Nat)
  | exitMsg (exitCode : Int) (signal : Option Int)
  | killed
  | sessionInfo (sid repo host hostLabel : String)
  | errMsg (message : String)
deriving DecidableEq, Repr

/-- External side effects performed by the broker, in program order. -/
inductive Effect where
  | spawn (cmd : String) (args : List String) (cwd : Option String)
  | send (ws : WS) (msg : Msg)
  | closeWs (ws : WS)
  | killPty (sid : String)
  | setTimer (handle : Nat) (sid : String) (ms : Int)
  | clearTimer (handle : Nat)
deriving DecidableEq, Repr

/-- `TerminalSession` of pty-manager (the `pty` handle itself is tracked
through the session id in `Effect`s; `clients` is a JS `Set`, modelled as
its insertion-ordered element list). -/
structure TerminalSession where
  id : String
  repo : String
  host : String
  hostLabel : String
  createdAt : Nat
  clients : List WS
  history : List Nat
deriving DecidableEq, Repr

/-- The module-level mutable state of pty-manager: the `sessions` map and
the `sessionTimeouts` map (timeout handle per session id). -/
structure PtyState where
  sessions : List (String × TerminalSession)
  sessionTimeouts : List (String × Nat)
deriving DecidableEq, Repr

/-- `HostConfig` of hosts.ts; `type` is the literal string `"local"` or
`"ssh"` exactly as in the TypeScript union type. -/
structure HostConfig where
  id : String
  label : String
  type : String
  host : Option String := none
  user : Option String := none
deriving DecidableEq, Repr

/-- `getHost` of hosts.ts over an already-loaded validated host list. -/
def getHost (hosts : List HostConfig) (hid : String) : Option HostConfig :=
  hosts.find? (fun h => h.id = hid)

/-- JavaScript truthiness of an optional string field
(`host.host && host.user`): present and nonempty. -/
def strTruthy : Option String → Bool
  | none => false
  | some s => !s.isEmpty

/-- `SESSION_TIMEOUT_MS`: the environment variable when set (already
parsed; parsing is external), otherwise `0` (the default: disabled). -/
def sessionTimeoutMsOfEnv : Option Int → Int
  | none => 0
  | some v => v

/-- The result of the host-liveness probe (`checkHostOnline` in hosts.ts,
an external ssh invocation with a short timeout), abstracted as a boolean
per host id.  `probeOffline` is the environment in which every remote
host's probe reports offline. -/
def probeOffline : String → Bool := fun _ => false

/-! ## History buffer -/

/-- `MAX_HISTORY_SIZE = 100 * 1024` (100 KiB). -/
def MAX_HISTORY_SIZE : Nat := 100 * 1024

/-- JavaScript `l.slice(-n)`: the last `min n l.length` elements. -/
def sliceLast (n : Nat) (l : List Nat) : List Nat := l.drop (l.length - n)

/-- The `pty.onData` history update: append, then truncate from the front
when strictly over the cap. -/
def updateHistory (h d : List Nat) : List Nat :=
  let h2 := h ++ d
  if h2.length > MAX_HISTORY_SIZE then sliceLast MAX_HISTORY_SIZE h2 else h2

/-- The history after a sequence of output events, starting from the
empty buffer a fresh session has. -/
def histAfter (chunks : List (List Nat)) : List Nat :=
  chunks.foldl updateHistory []

/-! ## Timeout management (`resetSessionTimeout` / `clearSessionTimeout`) -/

/-- `clearSessionTimeout`: clear and forget the pending timer, if any. -/
def clearSessionTimeout (st : PtyState) (sid : String) : PtyState × List Effect :=
  match alookup st.sessionTimeouts sid with
  | none => (st, [])
  | some h =>
    ({ st with sessionTimeouts := adelete st.sessionTimeouts sid }, [Effect.clearTimer h])

/-- `resetSessionTimeout`: no-op when `SESSION_TIMEOUT_MS <= 0`; otherwise
clear any existing timer and schedule a fresh full-duration one
(`freshTimer` is the handle returned by `setTimeout`). -/
def resetSessionTimeout (timeoutMs : Int) (freshTimer : Nat) (st : PtyState) (sid : String) :
    PtyState × List Effect :=
  if timeoutMs ≤ 0 then (st, [])
  else
    let clearEffs : List Effect :=
      match alookup st.sessionTimeouts sid with
      | none => []
      | some h => [Effect.clearTimer h]
    ({ st with sessionTimeouts := aset st.sessionTimeouts sid freshTimer },
     clearEffs ++ [Effect.setTimer freshTimer sid timeoutMs])

/-! ## Session operations (pty-manager) -/

/-- `killSession`: absent id is a `false` no-op; otherwise clear the
timer, notify and close every open client, kill the pty, remove the
entry, return `true`. -/
def killSession (st : PtyState) (sid : String) : PtyState × Bool × List Effect :=
  match alookup st.sessions sid with
  | none => (st, false, [])
  | some s =>
    let cleared := clearSessionTimeout st sid
    let clientEffs := s.clients.flatMap (fun c =>
      if c.readyState = 1 then [Effect.send c Msg.killed, Effect.closeWs c] else [])
    ({ cleared.1 with sessions := adelete cleared.1.sessions sid },
     true,
     cleared.2 ++ clientEffs ++ [Effect.killPty sid])

/-- The broadcast loop of the `pty.onData` handler: every open client
gets the chunk. -/
def broadcastData (cs : List WS) (d : List Nat) : List Effect :=
  cs.flatMap (fun c => if c.readyState = 1 then [Effect.send c (Msg.data d)] else [])

/-- The `pty.onData` handler for session `sid`: append the chunk to the
session's history (capped), then broadcast it.  The captured `session`
object is the registry entry for `sid`. -/
def ptyData (st : PtyState) (sid : String) (d : List Nat) : PtyState × List Effect :=
  match alookup st.sessions sid with
  | none => (st, [])
  | some s =>
    ({ st with sessions := aset st.sessions sid { s with history := updateHistory s.history d } },
     broadcastData s.clients d)

/-- The `pty.onExit` handler: clear the timer, send `exit` (code and
signal) to every open client of the captured session object `s`, and
delete the registry entry. -/
def ptyExit (st : PtyState) (sid : String) (s : TerminalSession)
    (exitCode : Int) (signal : Option Int) : PtyState × List Effect :=
  let cleared := clearSessionTimeout st sid
  let clientEffs := s.clients.flatMap (fun c =>
    if c.readyState = 1 then [Effect.send c (Msg.exitMsg exitCode signal)] else [])
  ({ cleared.1 with sessions := adelete cleared.1.sessions sid },
   cleared.2 ++ clientEffs)

/-- JS `Set.add` on the insertion-ordered element list. -/
def setAdd (cs : List WS) (c : WS) : List WS := if c ∈ cs then cs else cs ++ [c]

/-- `addClient`: add the socket to the session's client set, then clear
the inactivity timer. -/
def addClient (st : PtyState) (sid : String) (c : WS) : PtyState × Bool × List Effect :=
  match alookup st.sessions sid with
  | none => (st, false, [])
  | some s =>
    let st1 : PtyState :=
      { st with sessions := aset st.sessions sid { s with clients := setAdd s.clients c } }
    let cleared := clearSessionTimeout st1 sid
    (cleared.1, true, cleared.2)

/-- `removeClient`: drop the socket; if the client set became empty,
start the inactivity timeout. -/
def removeClient (timeoutMs : Int) (freshTimer : Nat) (st : PtyState) (sid : String) (c : WS) :
    PtyState × Bool × List Effect :=
  match alookup st.sessions sid with
  | none => (st, false, [])
  | some s =>
    let newClients := s.clients.filter (fun x => x ≠ c)
    let st1 : PtyState :=
      { st with sessions := aset st.sessions sid { s with clients := newClients } }
    if newClients.isEmpty then
      let r := resetSessionTimeout timeoutMs freshTimer st1 sid
      (r.1, true, r.2)
    else (st1, true, [])

/-- The callback body of the timer scheduled by `resetSessionTimeout`:
kill the session when it still exists with zero clients at fire time,
otherwise recheck-and-reschedule via `resetSessionTimeout`.  -/
def timerFireBody (timeoutMs : Int) (freshTimer : Nat) (st : PtyState) (sid : String) :
    PtyState × List Effect :=
  match alookup st.sessions sid with
  | some s =>
    if s.clients.isEmpty then
      let r := killSession st sid
      (r.1, r.2.2)
    else resetSessionTimeout timeoutMs freshTimer st sid
  | none => resetSessionTimeout timeoutMs freshTimer st sid

/-! ## Session creation (`createSession`)

`createSession(repo, hostId)` in source order: validate the path (throw
`"Invalid repository path"` before anything else), resolve the host and
spawn (ssh for a configured remote, a local shell otherwise; unknown or
invalidly configured remote hosts throw before any spawn), build the
session record, store it, arm the inactivity timeout.  The generated
UUID, the current time, the shell and claude executable discovered from
the environment, and the `setTimeout` handle are passed in as
parameters. -/

inductive CreateErr where
  | invalidPath
  | unknownHost (hostId : String)
  | invalidHostConfig (hostId : String)
deriving DecidableEq, Repr

/-- The host-resolution and spawn-choice section of `createSession` (the
`if (hostId !== "local")` block): for a remote host, resolve it (throwing
for an unknown id) and spawn `ssh -t user@host "cd repo && claude"` when
validly configured (type ssh with truthy host and user), else throw; for
`"local"`, spawn the shell running the claude executable in `repo`, with
the label falling back to `"Local"`. -/
def resolveSpawn (hosts : List HostConfig) (shell claudePath repo hostId : String) :
    Except CreateErr (Effect × String) :=
  if hostId ≠ "local" then
    match getHost hosts hostId with
    | none => Except.error (CreateErr.unknownHost hostId)
    | some h =>
      if h.type = "ssh" ∧ strTruthy h.host ∧ strTruthy h.user then
        Except.ok
          (Effect.spawn "ssh"
            ["-t", h.user.getD "" ++ "@" ++ h.host.getD "", "cd " ++ repo ++ " && claude"]
            none,
           h.label)
      else Except.error (CreateErr.invalidHostConfig hostId)
  else
    let hostLabel :=
      match getHost hosts hostId with
      | some h => if h.label.isEmpty then "Local" else h.label
      | none => "Local"
    Except.ok (Effect.spawn shell ["-c", claudePath] (some repo), hostLabel)

def createSession (hosts : List HostConfig) (timeoutMs : Int) (freshTimer : Nat)
    (now : Nat) (newId : String) (shell claudePath : String)
    (st : PtyState) (repo hostId : String) :
    PtyState × Except CreateErr TerminalSession × List Effect :=
  if ¬ isValidPath repo then (st, Except.error CreateErr.invalidPath, [])
  else
    match resolveSpawn hosts shell claudePath repo hostId with
    | Except.error e => (st, Except.error e, [])
    | Except.ok se =>
      let session : TerminalSession :=
        { id := newId, repo := repo, host := hostId, hostLabel := se.2,
          createdAt := now, clients := [], history := [] }
      let st1 : PtyState := { st with sessions := aset st.sessions newId session }
      let armed := resetSessionTimeout timeoutMs freshTimer st1 newId
      (armed.1, Except.ok session, se.1 :: armed.2)

/-! ## Websocket attach to an existing session (server, `/api/terminals/:id` onOpen) -/

/-- The `onOpen` handler for attaching to an existing session: unknown id
gets an error message and a close; otherwise `addClient`, then the
`session` info frame, then the history snapshot (sent only when the
history string is truthy, i.e. nonempty). -/
def attachOpen (st : PtyState) (sid : String) (c : WS) : PtyState × List Effect :=
  match alookup st.sessions sid with
  | none => (st, [Effect.send c (Msg.errMsg "Session not found"), Effect.closeWs c])
  | some s =>
    let added := addClient st sid c
    let histEffs : List Effect :=
      match alookup added.1.sessions sid with
      | some s1 => if s1.history.isEmpty then [] else [Effect.send c (Msg.data s1.history)]
      | none => []
    (added.1,
     added.2.2 ++ [Effect.send c (Msg.sessionInfo s.id s.repo s.host s.hostLabel)] ++ histEffs)

/-- A run of `pty.onData` events against a session, accumulating the
effects in order. -/
def runOutputs (sid : String) : PtyState → List (List Nat) → PtyState × List Effect
  | st, [] => (st, [])
  | st, d :: ds =>
    let r := ptyData st sid d
    let rest := runOutputs sid r.1 ds
    (rest.1, r.2 ++ rest.2)

/-- The `data` payloads delivered to connection `c`, in order. -/
def dataTo (c : WS) (effs : List Effect) : List (List Nat) :=
  effs.filterMap (fun e =>
    match e with
    | Effect.send w (Msg.data d) => if w = c then some d else none
    | _ => none)

/-! ## Broker operation traces

An operation vocabulary over the broker, used to state system-wide
invariants (in particular that a disabled inactivity timeout never
creates a timer and never destroys a session).  `fire sid` runs the
timer callback, which only exists while a timer is pending for `sid`;
`exitEv` runs the `pty.onExit` handler of the registered session. -/

inductive Op where
  | create (repo hostId newId shell claudePath : String) (now freshTimer : Nat)
  | attach (sid : String) (c : WS)
  | detach (sid : String) (c : WS) (freshTimer : Nat)
  | kill (sid : String)
  | dataEv (sid : String) (d : List Nat)
  | exitEv (sid : String) (code : Int) (sig : Option Int)
  | fire (sid : String) (freshTimer : Nat)

def step (hosts : List HostConfig) (timeoutMs : Int) (st : PtyState) :
    Op → PtyState × List Effect
  | Op.create repo hostId newId shell claudePath now freshTimer =>
    let r := createSession hosts timeoutMs freshTimer now newId shell claudePath st repo hostId
    (r.1, r.2.2)
  | Op.attach sid c => attachOpen st sid c
  | Op.detach sid c freshTimer =>
    let r := removeClient timeoutMs freshTimer st sid c
    (r.1, r.2.2)
  | Op.kill sid =>
    let r := killSession st sid
    (r.1, r.2.2)
  | Op.dataEv sid d => ptyData st sid d
  | Op.exitEv sid code sig =>
    match alookup st.sessions sid with
    | some s => ptyExit st sid s code sig
    | none => (st, [])
  | Op.fire sid freshTimer =>
    match alookup st.sessionTimeouts sid with
    | some _ => timerFireBody timeoutMs freshTimer st sid
    | none => (st, [])

def runOps (hosts : List HostConfig) (timeoutMs : Int) :
    PtyState → List Op → PtyState × List Effect
  | st, [] => (st, [])
  | st, op :: ops =>
    let r := step hosts timeoutMs st op
    let rest := runOps hosts timeoutMs r.1 ops
    (rest.1, r.2 ++ rest.2)

/-- Whether an effect is the scheduling of an inactivity timer. -/
def isSetTimer : Effect → Bool
  | Effect.setTimer _ _ _ => true
  | _ => false

/-! ## Client reconnection backoff (`useTerminal`, web client) -/

/-- What the `ws.onclose` handler does, as a function of the current
retry count: schedule a reconnect after `min(baseDelay * 2^count, 30000)`
ms and bump the count, or report terminal failure once retries are
exhausted. -/
inductive ReconnectAction where
  | scheduleRetry (delayMs : Nat) (newCount : Nat)
  | terminalFailure
deriving DecidableEq, Repr

def onCloseReconnect (maxRetries baseDelay retryCount : Nat) : ReconnectAction :=
  if retryCount < maxRetries then
    ReconnectAction.scheduleRetry (min (baseDelay * 2 ^ retryCount) 30000) (retryCount + 1)
  else ReconnectAction.terminalFailure

/-- `n` consecutive unexpected closes, threading the retry counter the
way the hook does (reset only by a successful `onopen`, which never
happens in this scenario). -/
def simulateDrops (maxRetries baseDelay : Nat) : Nat → Nat → List ReconnectAction
  | 0, _ => []
  | n + 1, count =>
    match onCloseReconnect maxRetries baseDelay count with
    | ReconnectAction.scheduleRetry d c =>
      ReconnectAction.scheduleRetry d c :: simulateDrops maxRetries baseDelay n c
    | ReconnectAction.terminalFailure =>
      ReconnectAction.terminalFailure :: simulateDrops maxRetries baseDelay n count

/-! ## Association list lemmas -/

@[simp] theorem alookup_nil {α : Type} (k : String) :
    alookup ([] : List (String × α)) k = none := rfl

@[simp] theorem alookup_cons {α : Type} (p : String × α) (ps : List (String × α)) (k : String) :
    alookup (p :: ps) k = if p.1 = k then some p.2 else alookup ps k := rfl

@[simp] theorem alookup_adelete {α : Type} (l : List (String × α)) (k : String) :
    alookup (adelete l k) k = none := by
  induction l with
  | nil => rfl
  | cons p ps ih =>
    by_cases h : p.1 = k <;> simp [adelete, h, ih]

theorem alookup_adelete_ne {α : Type} (l : List (String × α)) (k k' : String) (h : k' ≠ k) :
    alookup (adelete l k) k' = alookup l k' := by
  induction l with
  | nil => rfl
  | cons p ps ih =>
    by_cases hp : p.1 = k
    · have hpk' : ¬ p.1 = k' := by rw [hp] ; exact Ne.symm h
      simp only [adelete, if_pos hp, ih, alookup_cons, if_neg hpk']
    · simp only [adelete, if_neg hp, alookup_cons]
      by_cases hp' : p.1 = k'
      · rw [if_pos hp', if_pos hp']
      · rw [if_neg hp', if_neg hp', ih]

@[simp] theorem alookup_aset {α : Type} (l : List (String × α)) (k : String) (v : α) :
    alookup (aset l k v) k = some v := by
  induction l with
  | nil => simp [aset]
  | cons p ps ih =>
    by_cases h : p.1 = k <;> simp [aset, h, ih]

theorem alookup_aset_ne {α : Type} (l : List (String × α)) (k k' : String) (v : α) (h : k' ≠ k) :
    alookup (aset l k v) k' = alookup l k' := by
  have hkk' : ¬ k = k' := fun hk => h hk.symm
  induction l with
  | nil => simp [aset, alookup, hkk']
  | cons p ps ih =>
    by_cases hp : p.1 = k
    · have hpk' : ¬ p.1 = k' := by rw [hp] ; exact hkk'
      simp only [aset, if_pos hp, alookup_cons, if_neg hkk', if_neg hpk']
    · simp only [aset, if_neg hp, alookup_cons]
      by_cases hp' : p.1 = k'
      · rw [if_pos hp', if_pos hp']
      · rw [if_neg hp', if_neg hp', ih]

theorem length_aset_of_absent {α : Type} (l : List (String × α)) (k : String) (v : α)
    (h : alookup l k = none) : (aset l k v).length = l.length + 1 := by
  induction l with
  | nil => rfl
  | cons p ps ih =>
    by_cases hp : p.1 = k
    · simp [alookup, hp] at h
    · simp only [alookup, hp, if_neg hp] at h ⊢
      simp [aset, hp, ih h]

/-! ## Path validation lemmas -/

theorem hasDotDot_of_infix (x y : List Char) :
    hasDotDot (x ++ '.' :: '.' :: y) = true := by
  induction x with
  | nil => simp [hasDotDot]
  | cons a xs ih =>
    cases xs with
    | nil =>
      have h0 : hasDotDot ('.' :: '.' :: y) = true := by simp [hasDotDot]
      simp [hasDotDot, h0]
    | cons b rest =>
      have h0 : hasDotDot (b :: (rest ++ '.' :: '.' :: y)) = true := by simpa using ih
      simp [hasDotDot, h0]

theorem isValidPath_eq_false_of_dotdot (p : String) (x y : List Char)
    (h : p.toList = x ++ '.' :: '.' :: y) : isValidPath p = false := by
  have hd : hasDotDot p.toList = true := by rw [h] ; exact hasDotDot_of_infix x y
  simp only [isValidPath, hd, Bool.not_true, Bool.and_false]

theorem isValidPath_eq_false_of_badChar (p : String) (c : Char)
    (hc : c ∈ p.toList) (hbad : pathCharOk c = false) : isValidPath p = false := by
  have hall : p.toList.all pathCharOk = false := by
    cases hal : p.toList.all pathCharOk
    · rfl
    · have := (List.all_eq_true.mp hal) c hc
      rw [hbad] at this
      exact absurd this Bool.false_ne_true
  simp only [isValidPath, hall, Bool.and_false, Bool.false_and]

/-! ## History buffer lemmas -/

theorem sliceLast_of_le (n : Nat) (l : List Nat) (h : l.length ≤ n) : sliceLast n l = l := by
  unfold sliceLast
  have h0 : l.length - n = 0 := by omega
  simp [h0]

theorem sliceLast_length_le (n : Nat) (l : List Nat) : (sliceLast n l).length ≤ n := by
  unfold sliceLast
  simp only [List.length_drop]
  omega

theorem sliceLast_suffix (n : Nat) (l : List Nat) : sliceLast n l <:+ l :=
  List.drop_suffix _ _

theorem sliceLast_append (n : Nat) (a b : List Nat) :
    sliceLast n (sliceLast n a ++ b) = sliceLast n (a ++ b) := by
  unfold sliceLast
  have hk : a.length - n ≤ a.length := Nat.sub_le _ _
  rw [← List.drop_append_of_le_length hk, List.drop_drop]
  congr 1
  simp only [List.length_drop, List.length_append]
  omega

theorem updateHistory_eq (h d : List Nat) :
    updateHistory h d = sliceLast MAX_HISTORY_SIZE (h ++ d) := by
  show (if (h ++ d).length > MAX_HISTORY_SIZE then sliceLast MAX_HISTORY_SIZE (h ++ d)
        else h ++ d) = sliceLast MAX_HISTORY_SIZE (h ++ d)
  by_cases hl : (h ++ d).length > MAX_HISTORY_SIZE
  · rw [if_pos hl]
  · rw [if_neg hl, sliceLast_of_le _ _ (by omega)]

theorem foldl_updateHistory (chunks : List (List Nat)) :
    ∀ h : List Nat,
      chunks.foldl updateHistory (sliceLast MAX_HISTORY_SIZE h)
        = sliceLast MAX_HISTORY_SIZE (h ++ chunks.flatten) := by
  induction chunks with
  | nil =>
    intro h
    rw [List.foldl_nil, List.flatten_nil, List.append_nil]
  | cons d ds ih =>
    intro h
    rw [List.foldl_cons, updateHistory_eq, sliceLast_append, ih (h ++ d),
      List.flatten_cons, ← List.append_assoc]

theorem histAfter_eq (chunks : List (List Nat)) :
    histAfter chunks = sliceLast MAX_HISTORY_SIZE chunks.flatten := by
  have h0 : sliceLast MAX_HISTORY_SIZE ([] : List Nat) = [] := by rfl
  have h1 := foldl_updateHistory chunks []
  rw [h0, List.nil_append] at h1
  exact h1

/-! ## Output fan-out lemmas -/

theorem ptyData_present (st : PtyState) (sid : String) (d : List Nat) (s : TerminalSession)
    (h : alookup st.sessions sid = some s) :
    ptyData st sid d
      = ({ st with
            sessions := aset st.sessions sid { s with history := updateHistory s.history d } },
         broadcastData s.clients d) := by
  simp only [ptyData, h]

theorem runOutputs_nil (sid : String) (st : PtyState) : runOutputs sid st [] = (st, []) := rfl

theorem runOutputs_cons (sid : String) (st : PtyState) (d : List Nat) (ds : List (List Nat)) :
    runOutputs sid st (d :: ds)
      = ((runOutputs sid (ptyData st sid d).1 ds).1,
         (ptyData st sid d).2 ++ (runOutputs sid (ptyData st sid d).1 ds).2) := rfl

theorem runOutputs_session (sid : String) (chunks : List (List Nat)) :
    ∀ (st : PtyState) (s : TerminalSession), alookup st.sessions sid = some s →
      alookup (runOutputs sid st chunks).1.sessions sid
        = some { s with history := chunks.foldl updateHistory s.history } := by
  induction chunks with
  | nil =>
    intro st s h
    rw [runOutputs_nil, List.foldl_nil]
    exact h
  | cons d ds ih =>
    intro st s h
    rw [runOutputs_cons, ptyData_present st sid d s h, List.foldl_cons]
    exact ih _ { s with history := updateHistory s.history d } (alookup_aset _ _ _)

theorem dataTo_append (c : WS) (a b : List Effect) :
    dataTo c (a ++ b) = dataTo c a ++ dataTo c b := by
  simp [dataTo, List.filterMap_append]

theorem dataTo_broadcast (c : WS) (hc : c.readyState = 1) (cs : List WS) (d : List Nat) :
    dataTo c (broadcastData cs d) = List.replicate (cs.count c) d := by
  induction cs with
  | nil => rfl
  | cons w ws ih =>
    have hsplit : broadcastData (w :: ws) d
        = (if w.readyState = 1 then [Effect.send w (Msg.data d)] else [])
            ++ broadcastData ws d := by
      simp [broadcastData]
    have hhead : dataTo c (if w.readyState = 1 then [Effect.send w (Msg.data d)] else [])
        = if w = c then [d] else [] := by
      by_cases hw : w = c
      · subst hw
        rw [if_pos hc, if_pos rfl]
        simp [dataTo]
      · by_cases hw1 : w.readyState = 1 <;> simp [dataTo, hw, hw1]
    rw [hsplit, dataTo_append, hhead, ih]
    by_cases hw : w = c
    · subst hw
      simp [List.count_cons, List.replicate_succ]
    · have : ¬ w = c := hw
      simp [List.count_cons, this, hw]

theorem runOutputs_dataTo (sid : String) (c : WS) (hc : c.readyState = 1)
    (chunks : List (List Nat)) :
    ∀ (st : PtyState) (s : TerminalSession), alookup st.sessions sid = some s →
      s.clients.count c = 1 →
      dataTo c (runOutputs sid st chunks).2 = chunks := by
  induction chunks with
  | nil =>
    intro st s _ _
    rfl
  | cons d ds ih =>
    intro st s h hcount
    rw [runOutputs_cons, ptyData_present st sid d s h]
    dsimp only
    rw [dataTo_append, dataTo_broadcast c hc, hcount,
      ih _ { s with history := updateHistory s.history d } (alookup_aset _ _ _) hcount]
    rfl

/-! ## Timeout bookkeeping lemmas -/

theorem clearSessionTimeout_sessions (st : PtyState) (sid : String) :
    (clearSessionTimeout st sid).1.sessions = st.sessions := by
  unfold clearSessionTimeout
  cases alookup st.sessionTimeouts sid <;> rfl

theorem clearSessionTimeout_lookup (st : PtyState) (sid : String) :
    alookup (clearSessionTimeout st sid).1.sessionTimeouts sid = none := by
  unfold clearSessionTimeout
  cases h : alookup st.sessionTimeouts sid
  · exact h
  · exact alookup_adelete _ _

theorem clearSessionTimeout_empty (st : PtyState) (sid : String)
    (h : st.sessionTimeouts = []) : clearSessionTimeout st sid = (st, []) := by
  unfold clearSessionTimeout
  rw [h]
  rfl

theorem dataTo_clearSessionTimeout (c : WS) (st : PtyState) (sid : String) :
    dataTo c (clearSessionTimeout st sid).2 = [] := by
  unfold clearSessionTimeout
  cases alookup st.sessionTimeouts sid <;> rfl

theorem resetSessionTimeout_nonpos (timeoutMs : Int) (freshTimer : Nat)
    (st : PtyState) (sid : String) (h : timeoutMs ≤ 0) :
    resetSessionTimeout timeoutMs freshTimer st sid = (st, []) := by
  unfold resetSessionTimeout
  rw [if_pos h]

/-! ## Attach lemmas -/

theorem addClient_present (st : PtyState) (sid : String) (c : WS) (s : TerminalSession)
    (h : alookup st.sessions sid = some s) :
    addClient st sid c
      = ((clearSessionTimeout
            { st with sessions := aset st.sessions sid { s with clients := setAdd s.clients c } }
            sid).1,
         true,
         (clearSessionTimeout
            { st with sessions := aset st.sessions sid { s with clients := setAdd s.clients c } }
            sid).2) := by
  simp only [addClient, h]

theorem attachOpen_present (st : PtyState) (sid : String) (c : WS) (s : TerminalSession)
    (h : alookup st.sessions sid = some s) :
    attachOpen st sid c
      = ((addClient st sid c).1,
         (addClient st sid c).2.2
           ++ [Effect.send c (Msg.sessionInfo s.id s.repo s.host s.hostLabel)]
           ++ (if s.history.isEmpty then []
               else [Effect.send c (Msg.data s.history)])) := by
  have hadded : alookup (addClient st sid c).1.sessions sid
      = some { s with clients := setAdd s.clients c } := by
    rw [addClient_present st sid c s h, clearSessionTimeout_sessions]
    exact alookup_aset _ _ _
  simp only [attachOpen, h, hadded]

theorem attachOpen_lookup (st : PtyState) (sid : String) (c : WS) (s : TerminalSession)
    (h : alookup st.sessions sid = some s) :
    alookup (attachOpen st sid c).1.sessions sid
      = some { s with clients := setAdd s.clients c } := by
  rw [attachOpen_present st sid c s h]
  dsimp only
  rw [addClient_present st sid c s h]
  dsimp only
  rw [clearSessionTimeout_sessions]
  exact alookup_aset _ _ _

theorem attachOpen_dataTo (st : PtyState) (sid : String) (c : WS) (s : TerminalSession)
    (h : alookup st.sessions sid = some s) :
    dataTo c (attachOpen st sid c).2
      = (if s.history.isEmpty then [] else [s.history]) := by
  rw [attachOpen_present st sid c s h]
  dsimp only
  rw [addClient_present st sid c s h]
  dsimp only
  rw [dataTo_append, dataTo_append, dataTo_clearSessionTimeout]
  by_cases hh : s.history.isEmpty
  · rw [if_pos hh, if_pos hh]
    simp [dataTo]
  · rw [if_neg hh, if_neg hh]
    simp [dataTo]

/-! ## Claim theorems -/

/-- C1: for every repository path containing a `".."` traversal sequence or any
character outside `[A-Za-z0-9_\-./]`, `createSession` fails with the
invalid-path error before any process is spawned: no effect is emitted (in
particular no `spawn`, so the path never reaches an ssh command line) and the
session registry and timeout table are unchanged. -/
theorem createSession_rejects_invalid_path
    (hosts : List HostConfig) (timeoutMs : Int) (freshTimer now : Nat)
    (newId shell claudePath : String) (st : PtyState) (repo hostId : String)
    (hbad : (∃ x y, repo.toList = x ++ '.' :: '.' :: y)
          ∨ (∃ ch ∈ repo.toList, pathCharOk ch = false)) :
    createSession hosts timeoutMs freshTimer now newId shell claudePath st repo hostId
      = (st, Except.error CreateErr.invalidPath, []) := by
  have hv : isValidPath repo = false := by
    rcases hbad with ⟨x, y, hxy⟩ | ⟨ch, hch, hbadc⟩
    · exact isValidPath_eq_false_of_dotdot repo x y hxy
    · exact isValidPath_eq_false_of_badChar repo ch hch hbadc
  simp [createSession, hv]

/-- Witness for C1: a path with a shell metacharacter (`;` and spaces) is
rejected with state and effects untouched. -/
theorem createSession_rejects_invalid_path_witness :
    createSession [] 0 0 0 "id-1" "/bin/zsh" "claude"
        ⟨[], []⟩ "/tmp/repo; rm -rf /" "local"
      = (⟨[], []⟩, Except.error CreateErr.invalidPath, []) :=
  createSession_rejects_invalid_path [] 0 0 0 "id-1" "/bin/zsh" "claude"
    ⟨[], []⟩ "/tmp/repo; rm -rf /" "local"
    (Or.inr ⟨';', by decide, by decide⟩)

/-- C4: for every session (fresh history) and every sequence of output events,
after the events the history buffer is at most `MAX_HISTORY_SIZE = 100 KiB`
long and equals exactly the most recent suffix (`slice(-cap)`) of the
concatenation of all output produced, i.e. truncation drops oldest bytes from
the front. -/
theorem history_bounded_and_suffix
    (st : PtyState) (sid : String) (s : TerminalSession) (chunks : List (List Nat))
    (h : alookup st.sessions sid = some s) (h0 : s.history = []) :
    ∃ s', alookup (runOutputs sid st chunks).1.sessions sid = some s' ∧
      s'.history.length ≤ MAX_HISTORY_SIZE ∧
      s'.history = sliceLast MAX_HISTORY_SIZE chunks.flatten ∧
      s'.history <:+ chunks.flatten := by
  have heq : chunks.foldl updateHistory [] = sliceLast MAX_HISTORY_SIZE chunks.flatten :=
    histAfter_eq chunks
  refine ⟨{ s with history := chunks.foldl updateHistory s.history },
    runOutputs_session sid chunks st s h, ?_, ?_, ?_⟩
  · show (chunks.foldl updateHistory s.history).length ≤ MAX_HISTORY_SIZE
    rw [h0, heq]
    exact sliceLast_length_le _ _
  · show chunks.foldl updateHistory s.history = sliceLast MAX_HISTORY_SIZE chunks.flatten
    rw [h0, heq]
  · show chunks.foldl updateHistory s.history <:+ chunks.flatten
    rw [h0, heq]
    exact sliceLast_suffix _ _

/-- Witness for C4: a concrete two-chunk run against a fresh session. -/
theorem history_bounded_and_suffix_witness :
    ∃ s', alookup (runOutputs "s1"
        ⟨[("s1", ⟨"s1", "/r", "local", "Local", 0, [], []⟩)], []⟩
        [[1, 2], [3]]).1.sessions "s1" = some s' ∧
      s'.history.length ≤ MAX_HISTORY_SIZE ∧
      s'.history = sliceLast MAX_HISTORY_SIZE ([[1, 2], [3]] : List (List Nat)).flatten ∧
      s'.history <:+ ([[1, 2], [3]] : List (List Nat)).flatten :=
  history_bounded_and_suffix
    ⟨[("s1", ⟨"s1", "/r", "local", "Local", 0, [], []⟩)], []⟩
    "s1" ⟨"s1", "/r", "local", "Local", 0, [], []⟩ [[1, 2], [3]]
    (by simp [alookup]) rfl

/-- C3: a connection attaching to an existing session receives the full
current history buffer (when nonempty) strictly before any live output, and
then every subsequent live chunk exactly once, in order — no gaps, no
duplication: the `data` payloads it receives are exactly the history snapshot
followed by the live chunks, and the bytes it receives are exactly the
history bytes followed by all subsequent output bytes. -/
theorem attach_history_then_live
    (st : PtyState) (sid : String) (c : WS) (s : TerminalSession)
    (chunks : List (List Nat))
    (h : alookup st.sessions sid = some s) (hc : c.readyState = 1)
    (hnotin : c ∉ s.clients) :
    dataTo c ((attachOpen st sid c).2 ++ (runOutputs sid (attachOpen st sid c).1 chunks).2)
        = (if s.history.isEmpty then [] else [s.history]) ++ chunks ∧
      (dataTo c ((attachOpen st sid c).2
          ++ (runOutputs sid (attachOpen st sid c).1 chunks).2)).flatten
        = s.history ++ chunks.flatten := by
  have hlook := attachOpen_lookup st sid c s h
  have hcount : ({ s with clients := setAdd s.clients c } : TerminalSession).clients.count c
      = 1 := by
    show (setAdd s.clients c).count c = 1
    unfold setAdd
    rw [if_neg hnotin, List.count_append, List.count_eq_zero.mpr hnotin]
    simp
  have hmain : dataTo c ((attachOpen st sid c).2
        ++ (runOutputs sid (attachOpen st sid c).1 chunks).2)
      = (if s.history.isEmpty then [] else [s.history]) ++ chunks := by
    rw [dataTo_append, attachOpen_dataTo st sid c s h,
      runOutputs_dataTo sid c hc chunks _ _ hlook hcount]
  refine ⟨hmain, ?_⟩
  rw [hmain]
  by_cases hh : s.history.isEmpty
  · rw [if_pos hh]
    rw [List.isEmpty_iff.mp hh]
    rfl
  · rw [if_neg hh]
    rfl

/-- Witness for C3: attach to a session with nonempty history, then two live
chunks; the connection sees the history first, then both chunks. -/
theorem attach_history_then_live_witness :
    dataTo ⟨0, 1⟩ ((attachOpen
          ⟨[("s1", ⟨"s1", "/r", "local", "Local", 0, [], [7, 8]⟩)], []⟩ "s1" ⟨0, 1⟩).2
        ++ (runOutputs "s1" (attachOpen
          ⟨[("s1", ⟨"s1", "/r", "local", "Local", 0, [], [7, 8]⟩)], []⟩ "s1" ⟨0, 1⟩).1
          [[1], [2]]).2)
        = (if ([7, 8] : List Nat).isEmpty then [] else [([7, 8] : List Nat)]) ++ [[1], [2]] ∧
      (dataTo ⟨0, 1⟩ ((attachOpen
          ⟨[("s1", ⟨"s1", "/r", "local", "Local", 0, [], [7, 8]⟩)], []⟩ "s1" ⟨0, 1⟩).2
        ++ (runOutputs "s1" (attachOpen
          ⟨[("s1", ⟨"s1", "/r", "local", "Local", 0, [], [7, 8]⟩)], []⟩ "s1" ⟨0, 1⟩).1
          [[1], [2]]).2)).flatten
        = [7, 8] ++ ([[1], [2]] : List (List Nat)).flatten :=
  attach_history_then_live
    ⟨[("s1", ⟨"s1", "/r", "local", "Local", 0, [], [7, 8]⟩)], []⟩
    "s1" ⟨0, 1⟩ ⟨"s1", "/r", "local", "Local", 0, [], [7, 8]⟩ [[1], [2]]
    (by simp [alookup]) rfl (by decide)

/-! ## Kill and exit lemmas -/

theorem killSession_present (st : PtyState) (sid : String) (s : TerminalSession)
    (h : alookup st.sessions sid = some s) :
    killSession st sid
      = ({ (clearSessionTimeout st sid).1 with
            sessions := adelete (clearSessionTimeout st sid).1.sessions sid },
         true,
         (clearSessionTimeout st sid).2
           ++ s.clients.flatMap (fun c =>
                if c.readyState = 1
                then [Effect.send c Msg.killed, Effect.closeWs c] else [])
           ++ [Effect.killPty sid]) := by
  simp only [killSession, h]

theorem count_send_in_clear (st : PtyState) (sid : String) (c : WS) (m : Msg) :
    (clearSessionTimeout st sid).2.count (Effect.send c m) = 0 := by
  unfold clearSessionTimeout
  cases alookup st.sessionTimeouts sid
  · rfl
  · simp [List.count_singleton]

theorem count_exit_flatMap_zero (c : WS) (code : Int) (sig : Option Int) (cs : List WS)
    (hnc : c ∉ cs) :
    (cs.flatMap (fun w =>
        if w.readyState = 1 then [Effect.send w (Msg.exitMsg code sig)] else [])).count
      (Effect.send c (Msg.exitMsg code sig)) = 0 := by
  rw [List.count_eq_zero]
  intro hmem
  obtain ⟨w, hw, hmemw⟩ := List.mem_flatMap.mp hmem
  by_cases h1 : w.readyState = 1
  · rw [if_pos h1] at hmemw
    rw [List.mem_singleton] at hmemw
    obtain ⟨hcw, -⟩ := Effect.send.inj hmemw
    exact hnc (hcw ▸ hw)
  · rw [if_neg h1] at hmemw
    exact absurd hmemw (List.not_mem_nil _)

theorem count_exit_flatMap_one (c : WS) (code : Int) (sig : Option Int) (cs : List WS)
    (hnd : cs.Nodup) (hc : c ∈ cs) (hrs : c.readyState = 1) :
    (cs.flatMap (fun w =>
        if w.readyState = 1 then [Effect.send w (Msg.exitMsg code sig)] else [])).count
      (Effect.send c (Msg.exitMsg code sig)) = 1 := by
  induction cs with
  | nil => exact absurd hc (List.not_mem_nil _)
  | cons w ws ih =>
    obtain ⟨hwn, hwsnd⟩ := List.nodup_cons.mp hnd
    rw [List.flatMap_cons, List.count_append]
    rcases List.mem_cons.mp hc with hcw | hcs
    · subst hcw
      rw [count_exit_flatMap_zero c code sig ws hwn]
      rw [if_pos hrs]
      simp
    · have hwc : ¬ (Effect.send w (Msg.exitMsg code sig)
          = Effect.send c (Msg.exitMsg code sig)) := by
        intro he
        obtain ⟨hcw, -⟩ := Effect.send.inj he
        exact hwn (hcw ▸ hcs)
      rw [ih hwsnd hcs]
      by_cases h1 : w.readyState = 1
      · rw [if_pos h1]
        simp [List.count_singleton, hwc]
      · rw [if_neg h1]
        rfl

/-- C5: `killSession` returns a boolean and is idempotent: on a present id it
sends `killed` to every open attached client and closes it, kills the pty,
cancels the idle timer, removes the entry and returns `true`; on an absent id
(including a second call for the same id) it returns `false` with the state
untouched and no effects. -/
theorem killSession_notifies_and_idempotent (st : PtyState) (sid : String) :
    (alookup st.sessions sid = none → killSession st sid = (st, false, [])) ∧
    ∀ s, alookup st.sessions sid = some s →
      (killSession st sid).2.1 = true ∧
      alookup (killSession st sid).1.sessions sid = none ∧
      alookup (killSession st sid).1.sessionTimeouts sid = none ∧
      (∀ c ∈ s.clients, c.readyState = 1 →
        Effect.send c Msg.killed ∈ (killSession st sid).2.2 ∧
        Effect.closeWs c ∈ (killSession st sid).2.2) ∧
      Effect.killPty sid ∈ (killSession st sid).2.2 ∧
      killSession (killSession st sid).1 sid = ((killSession st sid).1, false, []) := by
  constructor
  · intro h
    simp only [killSession, h]
  · intro s h
    rw [killSession_present st sid s h]
    dsimp only
    refine ⟨rfl, alookup_adelete _ _, clearSessionTimeout_lookup st sid, ?_, ?_, ?_⟩
    · intro c hc hrs
      constructor
      · have hmem : Effect.send c Msg.killed ∈ s.clients.flatMap (fun w =>
            if w.readyState = 1
            then [Effect.send w Msg.killed, Effect.closeWs w] else []) :=
          List.mem_flatMap.mpr ⟨c, hc, by rw [if_pos hrs] ; simp⟩
        simp [List.mem_append, hmem]
      · have hmem : Effect.closeWs c ∈ s.clients.flatMap (fun w =>
            if w.readyState = 1
            then [Effect.send w Msg.killed, Effect.closeWs w] else []) :=
          List.mem_flatMap.mpr ⟨c, hc, by rw [if_pos hrs] ; simp⟩
        simp [List.mem_append, hmem]
    · simp
    · simp only [killSession, alookup_adelete]

/-- Witness for C5: a registered session with one open client is killed
(returning `true`, notifying the client) and a second kill of the same id
returns `false` without changes. -/
theorem killSession_notifies_and_idempotent_witness :
    (killSession ⟨[("s1", ⟨"s1", "/r", "local", "Local", 0, [⟨0, 1⟩], []⟩)], []⟩ "s1").2.1
        = true ∧
      Effect.send ⟨0, 1⟩ Msg.killed
        ∈ (killSession ⟨[("s1", ⟨"s1", "/r", "local", "Local", 0, [⟨0, 1⟩], []⟩)], []⟩
            "s1").2.2 ∧
      killSession
          (killSession ⟨[("s1", ⟨"s1", "/r", "local", "Local", 0, [⟨0, 1⟩], []⟩)], []⟩
            "s1").1 "s1"
        = ((killSession ⟨[("s1", ⟨"s1", "/r", "local", "Local", 0, [⟨0, 1⟩], []⟩)], []⟩
            "s1").1, false, []) := by
  have h := (killSession_notifies_and_idempotent
      ⟨[("s1", ⟨"s1", "/r", "local", "Local", 0, [⟨0, 1⟩], []⟩)], []⟩ "s1").2
    ⟨"s1", "/r", "local", "Local", 0, [⟨0, 1⟩], []⟩ (by simp [alookup])
  exact ⟨h.1, (h.2.2.2.1 ⟨0, 1⟩ (by decide) rfl).1, h.2.2.2.2.2⟩

/-- C6: when the underlying process of a registered session terminates, the
`exit` message carrying the exit code and signal is sent exactly once to every
open attached client, and afterwards the session is destroyed: its id no
longer resolves in the registry and its idle timer entry is gone. -/
theorem ptyExit_exactly_once_then_destroyed (st : PtyState) (sid : String)
    (s : TerminalSession) (code : Int) (sig : Option Int) (hnd : s.clients.Nodup) :
    (∀ c ∈ s.clients, c.readyState = 1 →
      (ptyExit st sid s code sig).2.count (Effect.send c (Msg.exitMsg code sig)) = 1) ∧
    alookup (ptyExit st sid s code sig).1.sessions sid = none ∧
    alookup (ptyExit st sid s code sig).1.sessionTimeouts sid = none := by
  refine ⟨?_, ?_, ?_⟩
  · intro c hc hrs
    show ((clearSessionTimeout st sid).2 ++ _).count _ = 1
    rw [List.count_append, count_send_in_clear,
      count_exit_flatMap_one c code sig s.clients hnd hc hrs]
  · exact alookup_adelete _ _
  · exact clearSessionTimeout_lookup st sid

/-- Witness for C6: a process exit with code 0 for a session with one open
client delivers exactly one `exit` frame to it and removes the session. -/
theorem ptyExit_exactly_once_then_destroyed_witness :
    (ptyExit ⟨[("s1", ⟨"s1", "/r", "local", "Local", 0, [⟨0, 1⟩], []⟩)], []⟩ "s1"
        ⟨"s1", "/r", "local", "Local", 0, [⟨0, 1⟩], []⟩ 0 none).2.count
        (Effect.send ⟨0, 1⟩ (Msg.exitMsg 0 none)) = 1 ∧
      alookup (ptyExit ⟨[("s1", ⟨"s1", "/r", "local", "Local", 0, [⟨0, 1⟩], []⟩)], []⟩ "s1"
        ⟨"s1", "/r", "local", "Local", 0, [⟨0, 1⟩], []⟩ 0 none).1.sessions "s1" = none := by
  have h := ptyExit_exactly_once_then_destroyed
    ⟨[("s1", ⟨"s1", "/r", "local", "Local", 0, [⟨0, 1⟩], []⟩)], []⟩ "s1"
    ⟨"s1", "/r", "local", "Local", 0, [⟨0, 1⟩], []⟩ 0 none (by decide)
  exact ⟨h.1 ⟨0, 1⟩ (by decide) rfl, h.2.1⟩

/-! ## Creation lemmas -/

theorem resetSessionTimeout_sessions (timeoutMs : Int) (freshTimer : Nat) (st : PtyState)
    (sid : String) :
    (resetSessionTimeout timeoutMs freshTimer st sid).1.sessions = st.sessions := by
  unfold resetSessionTimeout
  by_cases h : timeoutMs ≤ 0
  · rw [if_pos h]
  · rw [if_neg h]

theorem resolveSpawn_ssh (hosts : List HostConfig) (shell claudePath repo hostId : String)
    (h : HostConfig)
    (hnl : hostId ≠ "local") (hget : getHost hosts hostId = some h)
    (hssh : h.type = "ssh") (hhost : strTruthy h.host = true)
    (huser : strTruthy h.user = true) :
    resolveSpawn hosts shell claudePath repo hostId
      = Except.ok
          (Effect.spawn "ssh"
            ["-t", h.user.getD "" ++ "@" ++ h.host.getD "", "cd " ++ repo ++ " && claude"]
            none,
           h.label) := by
  unfold resolveSpawn
  rw [if_pos hnl, hget]
  dsimp only
  rw [if_pos ⟨hssh, hhost, huser⟩]

theorem createSession_ssh_eq
    (hosts : List HostConfig) (timeoutMs : Int) (freshTimer now : Nat)
    (newId shell claudePath : String) (st : PtyState) (repo hostId : String)
    (h : HostConfig)
    (hvalid : isValidPath repo = true) (hnl : hostId ≠ "local")
    (hget : getHost hosts hostId = some h) (hssh : h.type = "ssh")
    (hhost : strTruthy h.host = true) (huser : strTruthy h.user = true) :
    createSession hosts timeoutMs freshTimer now newId shell claudePath st repo hostId
      = ((resetSessionTimeout timeoutMs freshTimer { st with sessions := aset st.sessions newId ⟨newId, repo, hostId, h.label, now, [], []⟩ } newId).1,
         Except.ok ⟨newId, repo, hostId, h.label, now, [], []⟩,
         Effect.spawn "ssh"
             ["-t", h.user.getD "" ++ "@" ++ h.host.getD "", "cd " ++ repo ++ " && claude"]
             none
           :: (resetSessionTimeout timeoutMs freshTimer { st with sessions := aset st.sessions newId ⟨newId, repo, hostId, h.label, now, [], []⟩ } newId).2) := by
  unfold createSession
  rw [if_neg (not_not_intro hvalid),
    resolveSpawn_ssh hosts shell claudePath repo hostId h hnl hget hssh hhost huser]

/-- C2 as stated is refuted: counterexample with the host `"remote1"` validly
configured for ssh and its liveness probe reporting offline, where
`createSession` nevertheless succeeds, spawns the ssh process, and grows the
registry from zero to one session. -/
theorem createSession_offline_probe_counterexample :
    probeOffline "remote1" = false ∧
    (createSession [⟨"remote1", "Remote 1", "ssh", some "r1.example", some "bob"⟩]
        0 0 0 "id-1" "/bin/zsh" "claude" ⟨[], []⟩ "/home/u/proj" "remote1").2.1
      = Except.ok ⟨"id-1", "/home/u/proj", "remote1", "Remote 1", 0, [], []⟩ ∧
    Effect.spawn "ssh" ["-t", "bob@r1.example", "cd /home/u/proj && claude"] none
      ∈ (createSession [⟨"remote1", "Remote 1", "ssh", some "r1.example", some "bob"⟩]
        0 0 0 "id-1" "/bin/zsh" "claude" ⟨[], []⟩ "/home/u/proj" "remote1").2.2 ∧
    (createSession [⟨"remote1", "Remote 1", "ssh", some "r1.example", some "bob"⟩]
        0 0 0 "id-1" "/bin/zsh" "claude" ⟨[], []⟩ "/home/u/proj" "remote1").1.sessions.length
      = 1 := by
  refine ⟨rfl, rfl, ?_, rfl⟩
  rw [show (createSession [⟨"remote1", "Remote 1", "ssh", some "r1.example", some "bob"⟩]
        0 0 0 "id-1" "/bin/zsh" "claude" ⟨[], []⟩ "/home/u/proj" "remote1").2.2
      = [Effect.spawn "ssh" ["-t", "bob@r1.example", "cd /home/u/proj && claude"] none]
    from rfl]
  exact List.mem_singleton.mpr rfl

/-- C2 amended: session creation does not consult the liveness probe.  Even
when the probe reports a validly configured ssh host offline, the creation
request succeeds: the ssh process is spawned and the session is stored, so the
registry grows by one.  Creation is rejected only for an invalid path, an
unknown host id, or an invalid host configuration. -/
theorem createSession_ignores_liveness_probe
    (probe : String → Bool)
    (hosts : List HostConfig) (timeoutMs : Int) (freshTimer now : Nat)
    (newId shell claudePath : String) (st : PtyState) (repo hostId : String)
    (h : HostConfig)
    (_hoff : probe hostId = false)
    (hvalid : isValidPath repo = true) (hnl : hostId ≠ "local")
    (hget : getHost hosts hostId = some h) (hssh : h.type = "ssh")
    (hhost : strTruthy h.host = true) (huser : strTruthy h.user = true)
    (hfresh : alookup st.sessions newId = none) :
    (createSession hosts timeoutMs freshTimer now newId shell claudePath st repo hostId).2.1
        = Except.ok ⟨newId, repo, hostId, h.label, now, [], []⟩ ∧
      Effect.spawn "ssh"
          ["-t", h.user.getD "" ++ "@" ++ h.host.getD "", "cd " ++ repo ++ " && claude"]
          none
        ∈ (createSession hosts timeoutMs freshTimer now newId shell claudePath
            st repo hostId).2.2 ∧
      (createSession hosts timeoutMs freshTimer now newId shell claudePath
          st repo hostId).1.sessions.length
        = st.sessions.length + 1 := by
  rw [createSession_ssh_eq hosts timeoutMs freshTimer now newId shell claudePath st repo
    hostId h hvalid hnl hget hssh hhost huser]
  refine ⟨rfl, List.mem_cons_self _ _, ?_⟩
  show (resetSessionTimeout timeoutMs freshTimer _ newId).1.sessions.length = _
  rw [resetSessionTimeout_sessions]
  exact length_aset_of_absent _ _ _ hfresh

/-- Witness for the amended C2: the concrete offline `"remote1"` scenario. -/
theorem createSession_ignores_liveness_probe_witness :
    (createSession [⟨"remote1", "Remote 1", "ssh", some "r1.example", some "bob"⟩]
        1000 7 0 "id-1" "/bin/zsh" "claude" ⟨[], []⟩ "/home/u/proj" "remote1").2.1
        = Except.ok ⟨"id-1", "/home/u/proj", "remote1", "Remote 1", 0, [], []⟩ ∧
      Effect.spawn "ssh" ["-t", "bob@r1.example", "cd /home/u/proj && claude"] none
        ∈ (createSession [⟨"remote1", "Remote 1", "ssh", some "r1.example", some "bob"⟩]
            1000 7 0 "id-1" "/bin/zsh" "claude" ⟨[], []⟩ "/home/u/proj" "remote1").2.2 ∧
      (createSession [⟨"remote1", "Remote 1", "ssh", some "r1.example", some "bob"⟩]
          1000 7 0 "id-1" "/bin/zsh" "claude" ⟨[], []⟩ "/home/u/proj"
          "remote1").1.sessions.length
        = ([] : List (String × TerminalSession)).length + 1 :=
  createSession_ignores_liveness_probe probeOffline
    [⟨"remote1", "Remote 1", "ssh", some "r1.example", some "bob"⟩]
    1000 7 0 "id-1" "/bin/zsh" "claude" ⟨[], []⟩ "/home/u/proj" "remote1"
    ⟨"remote1", "Remote 1", "ssh", some "r1.example", some "bob"⟩
    rfl (by decide) (by decide) (by decide) rfl rfl rfl rfl

/-- C10: `createSession` is atomic on failure: whenever it returns an error
(invalid path, unknown host id, or invalid host configuration), the session
registry and the timeout table are exactly as before the call — no session is
stored, no timer is armed, no existing session is touched — and no effect
(in particular no spawn) was produced. -/
theorem createSession_atomic_on_failure
    (hosts : List HostConfig) (timeoutMs : Int) (freshTimer now : Nat)
    (newId shell claudePath : String) (st : PtyState) (repo hostId : String)
    (e : CreateErr)
    (herr : (createSession hosts timeoutMs freshTimer now newId shell claudePath
        st repo hostId).2.1 = Except.error e) :
    (createSession hosts timeoutMs freshTimer now newId shell claudePath
        st repo hostId).1 = st ∧
    (createSession hosts timeoutMs freshTimer now newId shell claudePath
        st repo hostId).2.2 = [] := by
  by_cases hv : isValidPath repo
  · cases hsp : resolveSpawn hosts shell claudePath repo hostId with
    | error e2 =>
      have heq : createSession hosts timeoutMs freshTimer now newId shell claudePath
          st repo hostId = (st, Except.error e2, []) := by
        simp only [createSession, if_neg (not_not_intro hv), hsp]
      rw [heq]
      exact ⟨rfl, rfl⟩
    | ok se =>
      exfalso
      have heq : (createSession hosts timeoutMs freshTimer now newId shell claudePath
          st repo hostId).2.1 = Except.ok ⟨newId, repo, hostId, se.2, now, [], []⟩ := by
        simp only [createSession, if_neg (not_not_intro hv), hsp]
      rw [heq] at herr
      simp at herr
  · have heq : createSession hosts timeoutMs freshTimer now newId shell claudePath
        st repo hostId = (st, Except.error CreateErr.invalidPath, []) := by
      simp only [createSession, if_pos hv]
    rw [heq]
    exact ⟨rfl, rfl⟩

/-- Witness for C10: creation against an unknown host id fails and leaves a
one-session registry and its timeout table untouched. -/
theorem createSession_atomic_on_failure_witness :
    (createSession [] 1000 7 0 "id-2" "/bin/zsh" "claude"
        ⟨[("s1", ⟨"s1", "/r", "local", "Local", 0, [], []⟩)], [("s1", 3)]⟩
        "/home/u/proj" "ghost").1
      = ⟨[("s1", ⟨"s1", "/r", "local", "Local", 0, [], []⟩)], [("s1", 3)]⟩ ∧
    (createSession [] 1000 7 0 "id-2" "/bin/zsh" "claude"
        ⟨[("s1", ⟨"s1", "/r", "local", "Local", 0, [], []⟩)], [("s1", 3)]⟩
        "/home/u/proj" "ghost").2.2
      = [] :=
  createSession_atomic_on_failure [] 1000 7 0 "id-2" "/bin/zsh" "claude"
    ⟨[("s1", ⟨"s1", "/r", "local", "Local", 0, [], []⟩)], [("s1", 3)]⟩
    "/home/u/proj" "ghost" (CreateErr.unknownHost "ghost") rfl

/-! ## Timer-fire lemmas (C8) -/

/-- C8: when the inactivity timer fires with the session present, the session
is killed only if the attached-client count is zero at fire time (and it is
then gone from the registry); with a nonzero count at fire time the callback
rechecks and reschedules a fresh full-duration countdown instead: the
registry is untouched, a `setTimer` for the full `timeoutMs` is issued and
recorded, and no pty is killed. -/
theorem timer_fire_rechecks_clients
    (timeoutMs : Int) (freshTimer : Nat) (st : PtyState) (sid : String)
    (s : TerminalSession) (hpos : 0 < timeoutMs)
    (h : alookup st.sessions sid = some s) :
    (s.clients = [] →
      timerFireBody timeoutMs freshTimer st sid
          = ((killSession st sid).1, (killSession st sid).2.2) ∧
      alookup (timerFireBody timeoutMs freshTimer st sid).1.sessions sid = none) ∧
    (s.clients ≠ [] →
      (timerFireBody timeoutMs freshTimer st sid).1.sessions = st.sessions ∧
      Effect.setTimer freshTimer sid timeoutMs
        ∈ (timerFireBody timeoutMs freshTimer st sid).2 ∧
      alookup (timerFireBody timeoutMs freshTimer st sid).1.sessionTimeouts sid
        = some freshTimer ∧
      ∀ x, Effect.killPty x ∉ (timerFireBody timeoutMs freshTimer st sid).2) := by
  have hnp : ¬ timeoutMs ≤ 0 := by omega
  constructor
  · intro hcl
    have hemp : s.clients.isEmpty = true := by rw [hcl] ; rfl
    have heq : timerFireBody timeoutMs freshTimer st sid
        = ((killSession st sid).1, (killSession st sid).2.2) := by
      simp only [timerFireBody, h, if_pos hemp]
    refine ⟨heq, ?_⟩
    rw [heq]
    show alookup (killSession st sid).1.sessions sid = none
    rw [killSession_present st sid s h]
    exact alookup_adelete _ _
  · intro hcl
    have hemp : ¬ s.clients.isEmpty = true := by
      cases hcs : s.clients with
      | nil => exact absurd hcs hcl
      | cons a l => simp
    have heq : timerFireBody timeoutMs freshTimer st sid
        = resetSessionTimeout timeoutMs freshTimer st sid := by
      simp only [timerFireBody, h, if_neg hemp]
    have hreq : resetSessionTimeout timeoutMs freshTimer st sid
        = ({ st with sessionTimeouts := aset st.sessionTimeouts sid freshTimer },
           (match alookup st.sessionTimeouts sid with
            | none => ([] : List Effect)
            | some hdl => [Effect.clearTimer hdl])
             ++ [Effect.setTimer freshTimer sid timeoutMs]) := by
      unfold resetSessionTimeout
      rw [if_neg hnp]
    rw [heq, hreq]
    refine ⟨rfl, ?_, alookup_aset _ _ _, ?_⟩
    · exact List.mem_append.mpr (Or.inr (List.mem_singleton.mpr rfl))
    · intro x hx
      rcases List.mem_append.mp hx with h1 | h1
      · cases hcl2 : alookup st.sessionTimeouts sid with
        | none =>
          rw [hcl2] at h1
          exact absurd h1 (List.not_mem_nil _)
        | some hdl =>
          rw [hcl2] at h1
          rw [List.mem_singleton] at h1
          exact Effect.noConfusion h1
      · rw [List.mem_singleton] at h1
        exact Effect.noConfusion h1

/-- Witness for C8: a pending timer fires for a session that still has one
attached client; the session survives and a fresh full-duration timer is
scheduled and recorded. -/
theorem timer_fire_rechecks_clients_witness :
    (timerFireBody 1000 9
          ⟨[("s1", ⟨"s1", "/r", "local", "Local", 0, [⟨0, 1⟩], []⟩)], [("s1", 3)]⟩
          "s1").1.sessions
        = [("s1", ⟨"s1", "/r", "local", "Local", 0, [⟨0, 1⟩], []⟩)] ∧
      Effect.setTimer 9 "s1" 1000
        ∈ (timerFireBody 1000 9
            ⟨[("s1", ⟨"s1", "/r", "local", "Local", 0, [⟨0, 1⟩], []⟩)], [("s1", 3)]⟩
            "s1").2 ∧
      alookup (timerFireBody 1000 9
          ⟨[("s1", ⟨"s1", "/r", "local", "Local", 0, [⟨0, 1⟩], []⟩)], [("s1", 3)]⟩
          "s1").1.sessionTimeouts "s1" = some 9 := by
  have h := (timer_fire_rechecks_clients 1000 9
      ⟨[("s1", ⟨"s1", "/r", "local", "Local", 0, [⟨0, 1⟩], []⟩)], [("s1", 3)]⟩
      "s1" ⟨"s1", "/r", "local", "Local", 0, [⟨0, 1⟩], []⟩ (by omega)
      (by simp [alookup])).2 (by decide)
  exact ⟨h.1, h.2.1, h.2.2.1⟩

/-! ## Disabled-timeout invariant (C7) -/

theorem isSetTimer_flatMap (cs : List WS) (f : WS → List Effect)
    (hf : ∀ w, ∀ e ∈ f w, isSetTimer e = false) :
    ∀ e ∈ cs.flatMap f, isSetTimer e = false := by
  intro e he
  obtain ⟨w, hw, hmem⟩ := List.mem_flatMap.mp he
  exact hf w e hmem

theorem resolveSpawn_ok_isSpawn (hosts : List HostConfig)
    (shell claudePath repo hostId : String) (se : Effect × String)
    (hsp : resolveSpawn hosts shell claudePath repo hostId = Except.ok se) :
    isSetTimer se.1 = false := by
  unfold resolveSpawn at hsp
  by_cases hnl : hostId ≠ "local"
  · rw [if_pos hnl] at hsp
    cases hget : getHost hosts hostId with
    | none =>
      rw [hget] at hsp
      exact absurd hsp (by simp)
    | some h =>
      rw [hget] at hsp
      dsimp only at hsp
      by_cases hcond : h.type = "ssh" ∧ strTruthy h.host = true ∧ strTruthy h.user = true
      · rw [if_pos hcond] at hsp
        have := Except.ok.inj hsp
        rw [← this]
        rfl
      · rw [if_neg hcond] at hsp
        exact absurd hsp (by simp)
  · rw [if_neg hnl] at hsp
    dsimp only at hsp
    have := Except.ok.inj hsp
    rw [← this]
    rfl

theorem step_no_timer (hosts : List HostConfig) (timeoutMs : Int) (hz : timeoutMs ≤ 0)
    (st : PtyState) (h0 : st.sessionTimeouts = []) (op : Op) :
    (step hosts timeoutMs st op).1.sessionTimeouts = [] ∧
    ∀ e ∈ (step hosts timeoutMs st op).2, isSetTimer e = false := by
  cases op with
  | create repo hostId newId shell claudePath now freshTimer =>
    by_cases hv : isValidPath repo
    · cases hsp : resolveSpawn hosts shell claudePath repo hostId with
      | error e2 =>
        have heq : step hosts timeoutMs st
            (Op.create repo hostId newId shell claudePath now freshTimer) = (st, []) := by
          simp only [step, createSession, if_neg (not_not_intro hv), hsp]
        rw [heq]
        exact ⟨h0, fun e he => absurd he (List.not_mem_nil _)⟩
      | ok se =>
        have heq : step hosts timeoutMs st
            (Op.create repo hostId newId shell claudePath now freshTimer)
            = ({ st with sessions := aset st.sessions newId ⟨newId, repo, hostId, se.2, now, [], []⟩ }, [se.1]) := by
          simp only [step, createSession, if_neg (not_not_intro hv), hsp,
            resetSessionTimeout_nonpos _ _ _ _ hz]
        rw [heq]
        refine ⟨h0, ?_⟩
        intro e he
        rw [List.mem_singleton] at he
        rw [he]
        exact resolveSpawn_ok_isSpawn hosts shell claudePath repo hostId se hsp
    · have heq : step hosts timeoutMs st
          (Op.create repo hostId newId shell claudePath now freshTimer) = (st, []) := by
        simp only [step, createSession, if_pos hv]
      rw [heq]
      exact ⟨h0, fun e he => absurd he (List.not_mem_nil _)⟩
  | attach sid c =>
    cases hs : alookup st.sessions sid with
    | none =>
      have heq : step hosts timeoutMs st (Op.attach sid c)
          = (st, [Effect.send c (Msg.errMsg "Session not found"), Effect.closeWs c]) := by
        simp only [step, attachOpen, hs]
      rw [heq]
      refine ⟨h0, ?_⟩
      intro e he
      rcases List.mem_cons.mp he with he | he
      · rw [he] ; rfl
      · rw [List.mem_singleton] at he
        rw [he] ; rfl
    | some s =>
      have hst1 : ({ st with sessions := aset st.sessions sid { s with clients := setAdd s.clients c } } : PtyState).sessionTimeouts = [] := h0
      have hadd : addClient st sid c
          = ({ st with sessions := aset st.sessions sid { s with clients := setAdd s.clients c } }, true, []) := by
        rw [addClient_present st sid c s hs, clearSessionTimeout_empty _ _ hst1]
      have heq := attachOpen_present st sid c s hs
      have hstep : step hosts timeoutMs st (Op.attach sid c) = attachOpen st sid c := rfl
      rw [hstep, heq, hadd]
      refine ⟨h0, ?_⟩
      intro e he
      dsimp only at he
      rw [List.nil_append] at he
      rcases List.mem_append.mp he with he | he
      · rw [List.mem_singleton] at he
        rw [he] ; rfl
      · by_cases hh : s.history.isEmpty
        · rw [if_pos hh] at he
          exact absurd he (List.not_mem_nil _)
        · rw [if_neg hh] at he
          rw [List.mem_singleton] at he
          rw [he] ; rfl
  | detach sid c freshTimer =>
    cases hs : alookup st.sessions sid with
    | none =>
      have heq : step hosts timeoutMs st (Op.detach sid c freshTimer) = (st, []) := by
        simp only [step, removeClient, hs]
      rw [heq]
      exact ⟨h0, fun e he => absurd he (List.not_mem_nil _)⟩
    | some s =>
      by_cases hni : (s.clients.filter (fun x => x ≠ c)).isEmpty
      · have heq : step hosts timeoutMs st (Op.detach sid c freshTimer)
            = ({ st with sessions := aset st.sessions sid { s with clients := s.clients.filter (fun x => x ≠ c) } }, []) := by
          simp only [step, removeClient, hs, if_pos hni,
            resetSessionTimeout_nonpos _ _ _ _ hz]
        rw [heq]
        exact ⟨h0, fun e he => absurd he (List.not_mem_nil _)⟩
      · have heq : step hosts timeoutMs st (Op.detach sid c freshTimer)
            = ({ st with sessions := aset st.sessions sid { s with clients := s.clients.filter (fun x => x ≠ c) } }, []) := by
          simp only [step, removeClient, hs, if_neg hni]
        rw [heq]
        exact ⟨h0, fun e he => absurd he (List.not_mem_nil _)⟩
  | kill sid =>
    cases hs : alookup st.sessions sid with
    | none =>
      have heq : step hosts timeoutMs st (Op.kill sid) = (st, []) := by
        simp only [step, killSession, hs]
      rw [heq]
      exact ⟨h0, fun e he => absurd he (List.not_mem_nil _)⟩
    | some s =>
      have heq : step hosts timeoutMs st (Op.kill sid)
          = ((killSession st sid).1, (killSession st sid).2.2) := by
        simp only [step]
      rw [heq, killSession_present st sid s hs, clearSessionTimeout_empty _ _ h0]
      refine ⟨h0, ?_⟩
      intro e he
      dsimp only at he
      rw [List.nil_append] at he
      rcases List.mem_append.mp he with he | he
      · refine isSetTimer_flatMap s.clients _ ?_ e he
        intro w e2 he2
        by_cases h1 : w.readyState = 1
        · rw [if_pos h1] at he2
          rcases List.mem_cons.mp he2 with he2 | he2
          · rw [he2] ; rfl
          · rw [List.mem_singleton] at he2
            rw [he2] ; rfl
        · rw [if_neg h1] at he2
          exact absurd he2 (List.not_mem_nil _)
      · rw [List.mem_singleton] at he
        rw [he] ; rfl
  | dataEv sid d =>
    cases hs : alookup st.sessions sid with
    | none =>
      have heq : step hosts timeoutMs st (Op.dataEv sid d) = (st, []) := by
        simp only [step, ptyData, hs]
      rw [heq]
      exact ⟨h0, fun e he => absurd he (List.not_mem_nil _)⟩
    | some s =>
      have heq : step hosts timeoutMs st (Op.dataEv sid d) = ptyData st sid d := by
        simp only [step]
      rw [heq, ptyData_present st sid d s hs]
      refine ⟨h0, ?_⟩
      intro e he
      refine isSetTimer_flatMap s.clients _ ?_ e he
      intro w e2 he2
      by_cases h1 : w.readyState = 1
      · rw [if_pos h1] at he2
        rw [List.mem_singleton] at he2
        rw [he2] ; rfl
      · rw [if_neg h1] at he2
        exact absurd he2 (List.not_mem_nil _)
  | exitEv sid code sig =>
    cases hs : alookup st.sessions sid with
    | none =>
      have heq : step hosts timeoutMs st (Op.exitEv sid code sig) = (st, []) := by
        simp only [step, hs]
      rw [heq]
      exact ⟨h0, fun e he => absurd he (List.not_mem_nil _)⟩
    | some s =>
      have heq : step hosts timeoutMs st (Op.exitEv sid code sig)
          = ptyExit st sid s code sig := by
        simp only [step, hs]
      rw [heq]
      show ((ptyExit st sid s code sig).1.sessionTimeouts = []) ∧ _
      unfold ptyExit
      rw [clearSessionTimeout_empty _ _ h0]
      refine ⟨h0, ?_⟩
      intro e he
      dsimp only at he
      rw [List.nil_append] at he
      refine isSetTimer_flatMap s.clients _ ?_ e he
      intro w e2 he2
      by_cases h1 : w.readyState = 1
      · rw [if_pos h1] at he2
        rw [List.mem_singleton] at he2
        rw [he2] ; rfl
      · rw [if_neg h1] at he2
        exact absurd he2 (List.not_mem_nil _)
  | fire sid freshTimer =>
    have heq : step hosts timeoutMs st (Op.fire sid freshTimer) = (st, []) := by
      simp only [step, h0, alookup_nil]
    rw [heq]
    exact ⟨h0, fun e he => absurd he (List.not_mem_nil _)⟩

theorem runOps_no_timer (hosts : List HostConfig) (timeoutMs : Int) (hz : timeoutMs ≤ 0) :
    ∀ (ops : List Op) (st : PtyState), st.sessionTimeouts = [] →
      (runOps hosts timeoutMs st ops).1.sessionTimeouts = [] ∧
      ∀ e ∈ (runOps hosts timeoutMs st ops).2, isSetTimer e = false := by
  intro ops
  induction ops with
  | nil =>
    intro st h0
    exact ⟨h0, fun e he => absurd he (List.not_mem_nil _)⟩
  | cons op ops ih =>
    intro st h0
    obtain ⟨h1, h2⟩ := step_no_timer hosts timeoutMs hz st h0 op
    obtain ⟨h3, h4⟩ := ih (step hosts timeoutMs st op).1 h1
    have heq : runOps hosts timeoutMs st (op :: ops)
        = ((runOps hosts timeoutMs (step hosts timeoutMs st op).1 ops).1,
           (step hosts timeoutMs st op).2
             ++ (runOps hosts timeoutMs (step hosts timeoutMs st op).1 ops).2) := rfl
    rw [heq]
    refine ⟨h3, ?_⟩
    intro e he
    rcases List.mem_append.mp he with he | he
    · exact h2 e he
    · exact h4 e he

/-- C7: when the configured inactivity duration is zero or the environment
variable is unset — unset is the default and parses to 0 — the idle-timeout
feature is disabled entirely: `resetSessionTimeout` is the identity with no
effects, along any trace of broker operations no timer is ever scheduled (no
`setTimer` effect, and the timeout table stays empty), and the timer-fire
transition is a no-op on every such state, so no session is ever destroyed by
timeout. -/
theorem idle_timeout_disabled_when_unset
    (hosts : List HostConfig) (envVar : Option Int)
    (hz : sessionTimeoutMsOfEnv envVar ≤ 0)
    (ops : List Op) (st : PtyState) (h0 : st.sessionTimeouts = []) :
    sessionTimeoutMsOfEnv none = 0 ∧
    (∀ (freshTimer : Nat) (st' : PtyState) (sid : String),
      resetSessionTimeout (sessionTimeoutMsOfEnv envVar) freshTimer st' sid = (st', [])) ∧
    (runOps hosts (sessionTimeoutMsOfEnv envVar) st ops).1.sessionTimeouts = [] ∧
    (∀ e ∈ (runOps hosts (sessionTimeoutMsOfEnv envVar) st ops).2, isSetTimer e = false) ∧
    (∀ (sid : String) (freshTimer : Nat) (st' : PtyState), st'.sessionTimeouts = [] →
      step hosts (sessionTimeoutMsOfEnv envVar) st' (Op.fire sid freshTimer) = (st', [])) := by
  obtain ⟨ha, hb⟩ := runOps_no_timer hosts _ hz ops st h0
  refine ⟨rfl, ?_, ha, hb, ?_⟩
  · intro freshTimer st' sid
    exact resetSessionTimeout_nonpos _ _ _ _ hz
  · intro sid freshTimer st' h0'
    simp only [step, h0', alookup_nil]

/-- Witness for C7: with the variable unset, a concrete trace (create a
session locally, detach-style timer arming included, then a timer-fire
attempt) leaves the timeout table empty and schedules nothing. -/
theorem idle_timeout_disabled_when_unset_witness :
    sessionTimeoutMsOfEnv none = 0 ∧
      (runOps [] (sessionTimeoutMsOfEnv none)
          ⟨[("s1", ⟨"s1", "/r", "local", "Local", 0, [], []⟩)], []⟩
          [Op.fire "s1" 5, Op.kill "s1"]).1.sessionTimeouts = [] := by
  have h := idle_timeout_disabled_when_unset [] none (by decide)
    [Op.fire "s1" 5, Op.kill "s1"]
    ⟨[("s1", ⟨"s1", "/r", "local", "Local", 0, [], []⟩)], []⟩ rfl
  exact ⟨h.1, h.2.2.1⟩

/-! ## Reconnection backoff (C9) -/

/-- C9: with the default `maxRetries = 5` and `baseDelay = 1000`, the n-th
retry (counting from 0, while `n < 5`) is scheduled after
`min(1000 * 2^n, 30000)` ms; over six consecutive drops the client schedules
retries after 1s, 2s, 4s, 8s, 16s and then reports a terminal failure instead
of stopping silently. -/
theorem reconnect_backoff_policy :
    (∀ n, n < 5 →
      onCloseReconnect 5 1000 n
        = ReconnectAction.scheduleRetry (min (1000 * 2 ^ n) 30000) (n + 1)) ∧
    simulateDrops 5 1000 6 0
      = [ReconnectAction.scheduleRetry 1000 1,
         ReconnectAction.scheduleRetry 2000 2,
         ReconnectAction.scheduleRetry 4000 3,
         ReconnectAction.scheduleRetry 8000 4,
         ReconnectAction.scheduleRetry 16000 5,
         ReconnectAction.terminalFailure] := by
  constructor
  · intro n hn
    unfold onCloseReconnect
    rw [if_pos hn]
  · decide

/-- Witness for C9: the fourth retry (retry count 3) waits
`min(1000 * 2^3, 30000) = 8000` ms. -/
theorem reconnect_backoff_policy_witness :
    onCloseReconnect 5 1000 3
      = ReconnectAction.scheduleRetry (min (1000 * 2 ^ 3) 30000) 4 :=
  reconnect_backoff_policy.1 3 (by decide)

end ClaudeRun
